import Mathlib

/-!
Verification of the training / evaluation core of `src/models.py`.

The Python source is shallowly embedded: Python `dict` / `defaultdict`
values become association lists with insertion-order-preserving writes,
machine floats become rationals (`ℚ`), tensors of class labels become
`List ℕ`, and code that can raise becomes `Except String`.  Opaque
external collaborators (the network forward pass, the optimizer, the
loss function) are abstracted as the per-batch values they produce.
-/

/-- Association-list read with a default value, modelling Python
`dict.get(k, dfl)` and the read half of a `defaultdict`. -/
def dget {κ β : Type} [DecidableEq κ] (dfl : β) : List (κ × β) → κ → β
  | [], _ => dfl
  | (k0, v) :: rest, k => if k0 = k then v else dget dfl rest k

/-- Association-list write, modelling Python `d[k] = v`: the first
occurrence of the key is updated in place, a fresh key is appended at the
end, preserving Python dict insertion order. -/
def dset {κ β : Type} [DecidableEq κ] : List (κ × β) → κ → β → List (κ × β)
  | [], k, v => [(k, v)]
  | (k0, v0) :: rest, k, v =>
      if k0 = k then (k0, v) :: rest else (k0, v0) :: dset rest k v

/-- Association-list lookup, modelling Python `k in d` / `d[k]` access
that distinguishes absent keys. -/
def dfind {κ β : Type} [DecidableEq κ] : List (κ × β) → κ → Option β
  | [], _ => none
  | (k0, v) :: rest, k => if k0 = k then some v else dfind rest k

/-- `defaultdict(int)` increment: `d[k] += 1`. -/
def dincr (d : List (ℕ × ℕ)) (k : ℕ) : List (ℕ × ℕ) :=
  dset d k (dget 0 d k + 1)

/-- `defaultdict(list)` append: `d[k].append(v)`. -/
def dappend (d : List (ℕ × List ℕ)) (k : ℕ) (v : ℕ) : List (ℕ × List ℕ) :=
  dset d k (dget [] d k ++ [v])

/-- Sum of a function of the stored values, modelling Python
`sum(f(v) for v in d.values())`. -/
def sumBy {κ β : Type} (f : β → ℕ) (d : List (κ × β)) : ℕ :=
  (d.map fun kv => f kv.2).sum

/-- `sum(d.values())` for an integer-valued dict. -/
def sumVals (d : List (ℕ × ℕ)) : ℕ := sumBy id d

/-- `sum(len(v) for v in d.values())` for a list-valued dict. -/
def sumLens (d : List (ℕ × List ℕ)) : ℕ := sumBy List.length d

/-- The per-class confusion state built by `_initialize_per_class_dict`
in `src/models.py`: a dict with the five entries below. -/
structure Stats where
  correct_total : ℕ
  total_per_class : List (ℕ × ℕ)
  correct_per_class : List (ℕ × ℕ)
  wrong_predictions : List (ℕ × List ℕ)
  predicted_as_class : List (ℕ × ℕ)
deriving Repr, DecidableEq

/-- `_initialize_per_class_dict` from `src/models.py`: every counter
starts empty. -/
def _initialize_per_class_dict : Stats :=
  { correct_total := 0
    total_per_class := []
    correct_per_class := []
    wrong_predictions := []
    predicted_as_class := [] }

/-- `y_pred.eq(y_true).sum().item()` from `src/models.py`: the count of
positionally equal entries under the tensor broadcasting rules of the
external tensor library — equal lengths compare positionally, a length-1
operand is broadcast against the other, and any other length mismatch
raises (`none`). -/
def tensorEqCount (a b : List ℕ) : Option ℕ :=
  if a.length = b.length then
    some ((a.zip b).countP fun x => decide (x.1 = x.2))
  else if a.length = 1 then
    some (b.countP fun y => decide (a.headD 0 = y))
  else if b.length = 1 then
    some (a.countP fun x => decide (x = b.headD 0))
  else none

/-- One iteration of the `for true_label, pred_label in zip(y_true, y_pred)`
loop body of `_update_per_class_dict` in `src/models.py`. -/
def _update_pair (s : Stats) (t p : ℕ) : Stats :=
  { s with
    total_per_class := dincr s.total_per_class t
    predicted_as_class := dincr s.predicted_as_class p
    correct_per_class :=
      if t = p then dincr s.correct_per_class t else s.correct_per_class
    wrong_predictions :=
      if t = p then s.wrong_predictions else dappend s.wrong_predictions t p }

/-- `_update_per_class_dict` from `src/models.py`: first
`stats['correct_total'] += y_pred.eq(y_true).sum().item()` (which raises
on non-broadcastable length mismatches), then the `zip(y_true, y_pred)`
loop over the positionally paired labels (which silently stops at the
shorter sequence, as Python `zip` does). -/
def _update_per_class_dict (stats : Stats) (y_pred y_true : List ℕ) :
    Except String Stats :=
  match tensorEqCount y_pred y_true with
  | none => .error "RuntimeError"
  | some c =>
      let s1 : Stats := { stats with correct_total := stats.correct_total + c }
      .ok ((y_true.zip y_pred).foldl (fun s x => _update_pair s x.1 x.2) s1)

/-- A finite sequence of accumulator updates, each batch given as the
pair `(y_pred, y_true)`, starting from a given state; errors propagate. -/
def runUpdates (s : Stats) : List (List ℕ × List ℕ) → Except String Stats
  | [] => .ok s
  | b :: rest =>
      match _update_per_class_dict s b.1 b.2 with
      | .error e => .error e
      | .ok s2 => runUpdates s2 rest

/-- `tp = correct_per_class.get(i, 0)` from
`compute_classification_metrics` in `src/models.py`. -/
def tpAt (correct_per_class : List (ℕ × ℕ)) (i : ℕ) : ℕ :=
  dget 0 correct_per_class i

/-- `fn = len(wrong_predictions.get(i, []))` from
`compute_classification_metrics` in `src/models.py`. -/
def fnAt (wrong_predictions : List (ℕ × List ℕ)) (i : ℕ) : ℕ :=
  (dget [] wrong_predictions i).length

/-- `predicted_as_class.get(i, 0)` from `compute_classification_metrics`
in `src/models.py`. -/
def paAt (predicted_as_class : List (ℕ × ℕ)) (i : ℕ) : ℕ :=
  dget 0 predicted_as_class i

/-- `support = total_per_class.get(i, 0)` from
`compute_classification_metrics` in `src/models.py`. -/
def supportAt (total_per_class : List (ℕ × ℕ)) (i : ℕ) : ℕ :=
  dget 0 total_per_class i

/-- `fp = predicted_as_class.get(i, 0) - tp` from
`compute_classification_metrics` in `src/models.py`; a Python `int`
subtraction, so the result lives in `ℤ`. -/
def fpAt (correct_per_class predicted_as_class : List (ℕ × ℕ)) (i : ℕ) : ℤ :=
  (paAt predicted_as_class i : ℤ) - (tpAt correct_per_class i : ℤ)

/-- `precision = tp / (tp + fp) if (tp + fp) > 0 else 0` from
`compute_classification_metrics` in `src/models.py`. -/
def precisionAt (correct_per_class predicted_as_class : List (ℕ × ℕ)) (i : ℕ) : ℚ :=
  let tp : ℤ := (tpAt correct_per_class i : ℤ)
  let fp : ℤ := fpAt correct_per_class predicted_as_class i
  if tp + fp > 0 then (tp : ℚ) / ((tp + fp : ℤ) : ℚ) else 0

/-- `recall = tp / (tp + fn) if (tp + fn) > 0 else 0` from
`compute_classification_metrics` in `src/models.py`. -/
def recallAt (correct_per_class : List (ℕ × ℕ))
    (wrong_predictions : List (ℕ × List ℕ)) (i : ℕ) : ℚ :=
  let tp : ℕ := tpAt correct_per_class i
  let fn : ℕ := fnAt wrong_predictions i
  if tp + fn > 0 then (tp : ℚ) / ((tp + fn : ℕ) : ℚ) else 0

/-- The per-class F1 of `compute_classification_metrics` in
`src/models.py`: `2 * precision * recall / (precision + recall)` when
`precision + recall > 0`, else `0`. -/
def f1At (correct_per_class predicted_as_class : List (ℕ × ℕ))
    (wrong_predictions : List (ℕ × List ℕ)) (i : ℕ) : ℚ :=
  let pr := precisionAt correct_per_class predicted_as_class i
  let rc := recallAt correct_per_class wrong_predictions i
  if pr + rc > 0 then 2 * pr * rc / (pr + rc) else 0

/-- Values stored in the metrics dictionary returned by the evaluation
entry point: scalar rates, per-class maps, and raw label sequences. -/
inductive MValue : Type
  | num (q : ℚ)
  | classMap (m : List (ℕ × ℚ))
  | labelList (l : List ℕ)
deriving Repr, DecidableEq

/-- The string-keyed metrics dictionary of `src/models.py`. -/
abbrev MetricsDict : Type := List (String × MValue)

/-- Modelled from the spec: the external reference routine
`sklearn.metrics.precision_score(average='macro')` used by
`compute_classification_metrics` — the unweighted mean, over the class
labels that appear in `y_true` or `y_pred`, of per-class precision with
zero-division degrading to `0`. -/
def sklearnMacroPrecision (y_true y_pred : List ℕ) : ℚ :=
  let labels := (y_true ++ y_pred).dedup
  if labels.length = 0 then 0
  else
    ((labels.map fun i =>
        let tp := (y_true.zip y_pred).countP fun x => decide (x.1 = i ∧ x.2 = i)
        let pc := y_pred.count i
        if pc > 0 then (tp : ℚ) / (pc : ℚ) else 0).sum) / (labels.length : ℚ)

/-- Modelled from the spec: the external reference routine
`sklearn.metrics.recall_score(average='macro', zero_division=0.0)` used
by `compute_classification_metrics` — the unweighted mean, over the
class labels that appear, of per-class recall with zero-division
degrading to `0`. -/
def sklearnMacroRecall (y_true y_pred : List ℕ) : ℚ :=
  let labels := (y_true ++ y_pred).dedup
  if labels.length = 0 then 0
  else
    ((labels.map fun i =>
        let tp := (y_true.zip y_pred).countP fun x => decide (x.1 = i ∧ x.2 = i)
        let tc := y_true.count i
        if tc > 0 then (tp : ℚ) / (tc : ℚ) else 0).sum) / (labels.length : ℚ)

/-- `compute_classification_metrics` from `src/models.py`: the
`for i in range(num_classes)` loop fills the per-class dictionaries and
the two running sums, then `macro_f1 = macro_f1_sum / num_classes` and
`weighted_f1 = weighted_f1_sum / total_samples if total_samples > 0 else 0`
(the source raises `ZeroDivisionError` when `num_classes = 0`; rational
division stands in for that unreachable case, which every theorem below
excludes).  The two macro averages delegate to the external reference
routines. -/
def compute_classification_metrics
    (correct_per_class total_per_class : List (ℕ × ℕ))
    (wrong_predictions : List (ℕ × List ℕ))
    (predicted_as_class : List (ℕ × ℕ))
    (y_true y_pred : List ℕ) (num_classes : ℕ) : MetricsDict :=
  let precisionDict := (List.range num_classes).map fun i =>
    (i, precisionAt correct_per_class predicted_as_class i)
  let recallDict := (List.range num_classes).map fun i =>
    (i, recallAt correct_per_class wrong_predictions i)
  let f1Dict := (List.range num_classes).map fun i =>
    (i, f1At correct_per_class predicted_as_class wrong_predictions i)
  let totalSamples := sumVals total_per_class
  let macroF1 : ℚ :=
    (((List.range num_classes).map
        (f1At correct_per_class predicted_as_class wrong_predictions)).sum) /
      (num_classes : ℚ)
  let weightedF1sum : ℚ :=
    (((List.range num_classes).map fun i =>
        f1At correct_per_class predicted_as_class wrong_predictions i *
          (supportAt total_per_class i : ℚ)).sum)
  let weightedF1 : ℚ :=
    if totalSamples > 0 then weightedF1sum / (totalSamples : ℚ) else 0
  [("per_class_precision", MValue.classMap precisionDict),
   ("per_class_recall", MValue.classMap recallDict),
   ("per_class_f1", MValue.classMap f1Dict),
   ("macro_precision", MValue.num (sklearnMacroPrecision y_true y_pred)),
   ("macro_recall", MValue.num (sklearnMacroRecall y_true y_pred)),
   ("macro_f1", MValue.num macroF1),
   ("weighted_f1", MValue.num weightedF1)]

/-- `_finalize_metrics` from `src/models.py`:
`overall_accuracy = stats['correct_total'] / len(test_loader.dataset) * 100`
(a `ZeroDivisionError` on an empty declared dataset size), then the
computed metrics dictionary extended with the accuracy and the two full
label sequences. -/
def _finalize_metrics (stats : Stats) (y_true_all y_pred_all : List ℕ)
    (datasetSize num_classes : ℕ) : Except String MetricsDict :=
  if datasetSize = 0 then .error "ZeroDivisionError"
  else
    let overallAccuracy : ℚ := (stats.correct_total : ℚ) / (datasetSize : ℚ) * 100
    let metrics := compute_classification_metrics
      stats.correct_per_class stats.total_per_class stats.wrong_predictions
      stats.predicted_as_class y_true_all y_pred_all num_classes
    .ok (dset (dset (dset metrics
        "overall_accuracy" (MValue.num overallAccuracy))
        "correct_labels" (MValue.labelList y_true_all))
        "predicted_labels" (MValue.labelList y_pred_all))

/-- An opaque classification model as `test_model` sees it: a forward
pass mapping an input batch to one score row per sample, plus the
`num_classes` attribute read by `test_model`. -/
structure TModel (α : Type) where
  forward : α → List (List ℚ)
  num_classes : ℕ

/-- `torch.stack(logits)` followed by the sum half of the mean along
dimension 0: the elementwise sum of the stacked score tensors. -/
def stackSum : List (List (List ℚ)) → List (List ℚ)
  | [] => []
  | [v] => v
  | v :: rest => List.zipWith (List.zipWith fun a b => a + b) v (stackSum rest)

/-- `torch.mean(torch.stack(logits), dim=0)` from `src/models.py`:
elementwise mean across the stacked model outputs. -/
def meanStack (ls : List (List (List ℚ))) : List (List ℚ) :=
  (stackSum ls).map (List.map fun x => x / (ls.length : ℚ))

/-- `get_models_predictions` from `src/models.py`: run every model on
the same input and average the resulting score tensors elementwise. -/
def get_models_predictions {α : Type} (models : List (TModel α)) (input : α) :
    List (List ℚ) :=
  meanStack (models.map fun m => m.forward input)

/-- Index scan underlying `torch.argmax(logits, dim=1)` on one score
row: the index of the first strictly greatest entry. -/
def argmaxGo (best : ℕ) (bv : ℚ) (i : ℕ) : List ℚ → ℕ
  | [] => best
  | x :: rest =>
      if x > bv then argmaxGo i x (i + 1) rest else argmaxGo best bv (i + 1) rest

/-- `torch.argmax` over one row of scores (`0` on an empty row, a case
the pipeline never produces). -/
def argmaxRow : List ℚ → ℕ
  | [] => 0
  | x :: rest => argmaxGo 0 x 1 rest

/-- Loop state of `test_model` from `src/models.py`: the accumulator,
the two growing label sequences, and the `metrics` binding, which only
comes into existence inside the per-batch loop. -/
structure TState where
  stats : Stats
  yTrueAll : List ℕ
  yPredAll : List ℕ
  metrics : Option MetricsDict

/-- The per-batch loop of `test_model` from `src/models.py`: ensemble
forward pass, argmax, accumulator update, label bookkeeping, and the
per-batch recomputation of `metrics` via `_finalize_metrics`. -/
def testGo {α : Type} (models : List (TModel α)) (numClasses datasetSize : ℕ) :
    List (α × List ℕ) → TState → Except String TState
  | [], st => .ok st
  | (data, labels) :: rest, st =>
      let logits := get_models_predictions models data
      let yPred := logits.map argmaxRow
      match _update_per_class_dict st.stats yPred labels with
      | .error e => .error e
      | .ok stats2 =>
          let yTrue2 := st.yTrueAll ++ labels
          let yPred2 := st.yPredAll ++ yPred
          match _finalize_metrics stats2 yTrue2 yPred2 datasetSize numClasses with
          | .error e => .error e
          | .ok ms =>
              testGo models numClasses datasetSize rest
                { stats := stats2, yTrueAll := yTrue2, yPredAll := yPred2,
                  metrics := some ms }

/-- `test_model` from `src/models.py`, over a normalized model list
(spec §9) and batches of `(image-batch, label-tensor)`: reads
`models[0].num_classes` (an `IndexError` on an empty model list), runs
the per-batch loop, and returns the `metrics` binding — a `NameError`
when the loop never ran, since `metrics` is only assigned inside it. -/
def test_model {α : Type} (models : List (TModel α))
    (batches : List (α × List ℕ)) (datasetSize : ℕ) (verbose : Bool) :
    Except String MetricsDict :=
  match models with
  | [] => .error "IndexError"
  | m0 :: _ =>
      match testGo models m0.num_classes datasetSize batches
          { stats := _initialize_per_class_dict, yTrueAll := [], yPredAll := [],
            metrics := none } with
      | .error e => .error e
      | .ok st =>
          match st.metrics with
          | none => .error "NameError"
          | some ms => .ok ms

/-- The per-batch loop of `train_model` from `src/models.py`, with the
opaque forward/loss/optimizer collaborators abstracted as the per-batch
`(loss, correct-prediction-count)` they produce: the batch loss is
appended to `losses` only when `save` is set, and the progress print of
every tenth batch divides by the dataset size (a `ZeroDivisionError`
when that size is `0` and `verbose >= 1`). -/
def trainGo (datasetSize : ℕ) (verbose : ℕ) (save : Bool) :
    List (ℚ × ℕ) → ℕ → List ℚ → ℕ → Except String (List ℚ × ℕ)
  | [], _, losses, corrects => .ok (losses, corrects)
  | (l, c) :: rest, idx, losses, corrects =>
      let losses2 := if save then losses ++ [l] else losses
      let corrects2 := corrects + c
      if verbose ≥ 1 ∧ idx % 10 = 0 ∧ datasetSize = 0 then
        .error "ZeroDivisionError"
      else trainGo datasetSize verbose save rest (idx + 1) losses2 corrects2

/-- `train_model` from `src/models.py`: after the batch loop,
`avg_loss = sum(losses) / len(losses)` (a `ZeroDivisionError` whenever
`losses` is empty — in particular whenever `save` is false) and
`overall_accuracy = 100 * corrects / len(train_loader.dataset)`; the
pair is returned when `save` is set, else `(0.0, 0.0)`. -/
def train_model (batches : List (ℚ × ℕ)) (datasetSize : ℕ) (save : Bool)
    (verbose : ℕ) : Except String (ℚ × ℚ) :=
  match trainGo datasetSize verbose save batches 0 [] 0 with
  | .error e => .error e
  | .ok (losses, corrects) =>
      if losses.length = 0 then .error "ZeroDivisionError"
      else
        let avgLoss : ℚ := losses.sum / (losses.length : ℚ)
        if datasetSize = 0 then .error "ZeroDivisionError"
        else
          let overallAccuracy : ℚ := 100 * (corrects : ℚ) / (datasetSize : ℚ)
          if save then .ok (avgLoss, overallAccuracy) else .ok (0, 0)

/-- The per-batch loop of `validate_model` from `src/models.py`: the
loss is appended only when `save` is set, and — inside the loop —
`avg_loss = sum(val_losses) / len(val_losses)` (a `ZeroDivisionError`
on the very first batch when `save` is false) together with
`accuracy = 100 * corrects / size`.  The loop state carries the latest
`(avg_loss, accuracy)` binding, absent before the first iteration. -/
def validGo (datasetSize : ℕ) (save : Bool) :
    List (ℚ × ℕ) → List ℚ → ℕ → Option (ℚ × ℚ) →
      Except String (List ℚ × ℕ × Option (ℚ × ℚ))
  | [], losses, corrects, last => .ok (losses, corrects, last)
  | (l, c) :: rest, losses, corrects, _ =>
      let losses2 := if save then losses ++ [l] else losses
      let corrects2 := corrects + c
      if losses2.length = 0 then .error "ZeroDivisionError"
      else
        let avgLoss : ℚ := losses2.sum / (losses2.length : ℚ)
        if datasetSize = 0 then .error "ZeroDivisionError"
        else
          validGo datasetSize save rest losses2 corrects2
            (some (avgLoss, 100 * (corrects2 : ℚ) / (datasetSize : ℚ)))

/-- `validate_model` from `src/models.py`: after the loop, the verbose
print and the `save` branch both read the loop-local `avg_loss` /
`accuracy` bindings (a `NameError` when the loop never ran); with
`save` unset the function returns `(0.0, 0.0)`. -/
def validate_model (batches : List (ℚ × ℕ)) (datasetSize : ℕ) (save : Bool)
    (verbose : Bool) : Except String (ℚ × ℚ) :=
  match validGo datasetSize save batches [] 0 none with
  | .error e => .error e
  | .ok (_, _, last) =>
      if verbose && last.isNone then .error "NameError"
      else if save then
        match last with
        | none => .error "NameError"
        | some r => .ok r
      else .ok (0, 0)

/-- The `EarlyStopping` state of `src/models.py`, generic over the
opaque snapshot type produced by the model's `state_dict()`. -/
structure EarlyStopping (σ : Type) where
  patience : ℕ
  delta : ℚ
  best_score : Option ℚ
  early_stop : Bool
  counter : ℕ
  best_model_state : Option σ
  epoch_stop : ℤ

/-- `EarlyStopping.__init__` from `src/models.py` (the source defaults
are `patience=5, delta=0`). -/
def EarlyStopping.init (σ : Type) (patience : ℕ) (delta : ℚ) : EarlyStopping σ :=
  { patience := patience, delta := delta, best_score := none,
    early_stop := false, counter := 0, best_model_state := none,
    epoch_stop := 0 }

/-- `EarlyStopping.__call__` from `src/models.py`, with the observed
model snapshot passed as the value `state_dict()` returns. -/
def EarlyStopping.call {σ : Type} (es : EarlyStopping σ) (val_loss : ℚ)
    (state_dict : σ) (epoch : ℤ) : EarlyStopping σ :=
  let score := -val_loss
  match es.best_score with
  | none =>
      { es with best_score := some score, best_model_state := some state_dict }
  | some best =>
      if score < best + es.delta then
        if es.counter + 1 ≥ es.patience then
          { es with counter := es.counter + 1, early_stop := true,
                    epoch_stop := epoch - (es.patience : ℤ) }
        else { es with counter := es.counter + 1 }
      else
        { es with best_score := some score,
                  best_model_state := some state_dict, counter := 0 }

/-- Modelled from the spec: the parameter-import operation of the
external model collaborator (`model.load_state_dict`), which fails fast
when handed something that is not a parameter mapping — in particular
the `None` held by a fresh `EarlyStopping` — and otherwise overwrites
the model's parameters, here returned as the model's new state. -/
def load_state_dict {σ : Type} (model : σ) (sd : Option σ) : Except String σ :=
  match sd with
  | none => .error "TypeError"
  | some s => .ok s

/-- `EarlyStopping.load_best_model` from `src/models.py`:
`model.load_state_dict(self.best_model_state)`. -/
def EarlyStopping.load_best_model {σ : Type} (es : EarlyStopping σ)
    (model : σ) : Except String σ :=
  load_state_dict model es.best_model_state

/-- Per-class split invariant of a reachable `ConfusionCounts` state:
each class's ground-truth total is its true positives plus its recorded
misclassifications. -/
def PerClassSplit (s : Stats) : Prop :=
  ∀ i, dget 0 s.total_per_class i =
      dget 0 s.correct_per_class i + (dget [] s.wrong_predictions i).length

/-- Per-class domination invariant of a reachable `ConfusionCounts`
state: a class's true positives never exceed the number of times it was
predicted. -/
def TpLePredicted (s : Stats) : Prop :=
  ∀ i, dget 0 s.correct_per_class i ≤ dget 0 s.predicted_as_class i

/-- The invariants of a reachable `ConfusionCounts` state, including the
global balance `sum(total_per_class.values()) = correct_total +
sum(len(v) for v in wrong_predictions.values())`. -/
def StatsInv (s : Stats) : Prop :=
  PerClassSplit s ∧ TpLePredicted s ∧
    sumVals s.total_per_class = s.correct_total + sumLens s.wrong_predictions

theorem dget_dset_self {κ β : Type} [DecidableEq κ] (dfl : β)
    (d : List (κ × β)) (k : κ) (v : β) : dget dfl (dset d k v) k = v := by
  induction d with
  | nil => simp [dget, dset]
  | cons kv rest ih =>
      obtain ⟨k0, v0⟩ := kv
      by_cases h : k0 = k <;> simp [dget, dset, h, ih]

theorem dget_dset_ne {κ β : Type} [DecidableEq κ] (dfl : β)
    (d : List (κ × β)) (k j : κ) (v : β) (hkj : k ≠ j) :
    dget dfl (dset d k v) j = dget dfl d j := by
  induction d with
  | nil => simp [dget, dset, hkj]
  | cons kv rest ih =>
      obtain ⟨k0, v0⟩ := kv
      by_cases h : k0 = k
      · subst h
        simp [dget, dset, hkj]
      · by_cases h2 : k0 = j
        · subst h2
          simp [dget, dset, h, Ne.symm hkj, ih]
        · simp [dget, dset, h, h2, ih]

theorem sumBy_dset {κ β : Type} [DecidableEq κ] (f : β → ℕ) (dfl : β)
    (d : List (κ × β)) (k : κ) (v : β) (hf : f dfl = 0) :
    sumBy f (dset d k v) + f (dget dfl d k) = sumBy f d + f v := by
  induction d with
  | nil => simp [sumBy, dset, dget, hf]
  | cons kv rest ih =>
      obtain ⟨k0, v0⟩ := kv
      by_cases h : k0 = k
      · simp [sumBy, dset, dget, h]
        omega
      · simp only [dset, dget, if_neg h, sumBy, List.map_cons, List.sum_cons]
        simp only [sumBy] at ih
        omega

theorem dget_dincr_self (d : List (ℕ × ℕ)) (k : ℕ) :
    dget 0 (dincr d k) k = dget 0 d k + 1 :=
  dget_dset_self 0 d k _

theorem dget_dincr_ne (d : List (ℕ × ℕ)) (k j : ℕ) (hkj : k ≠ j) :
    dget 0 (dincr d k) j = dget 0 d j :=
  dget_dset_ne 0 d k j _ hkj

theorem sumVals_dincr (d : List (ℕ × ℕ)) (k : ℕ) :
    sumVals (dincr d k) = sumVals d + 1 := by
  have h := sumBy_dset (κ := ℕ) id 0 d k (dget 0 d k + 1) rfl
  simp only [sumVals, dincr, id] at h ⊢
  omega

theorem dget_dappend_self (d : List (ℕ × List ℕ)) (k v : ℕ) :
    dget [] (dappend d k v) k = dget [] d k ++ [v] :=
  dget_dset_self [] d k _

theorem dget_dappend_ne (d : List (ℕ × List ℕ)) (k j v : ℕ) (hkj : k ≠ j) :
    dget [] (dappend d k v) j = dget [] d j :=
  dget_dset_ne [] d k j _ hkj

theorem sumLens_dappend (d : List (ℕ × List ℕ)) (k v : ℕ) :
    sumLens (dappend d k v) = sumLens d + 1 := by
  have h := sumBy_dset (κ := ℕ) List.length [] d k (dget [] d k ++ [v]) rfl
  simp only [sumLens, dappend, List.length_append, List.length_cons,
    List.length_nil] at h ⊢
  omega

theorem update_pair_correct_total (s : Stats) (t p : ℕ) :
    (_update_pair s t p).correct_total = s.correct_total := rfl

theorem update_pair_total_sum (s : Stats) (t p : ℕ) :
    sumVals (_update_pair s t p).total_per_class = sumVals s.total_per_class + 1 := by
  simp [_update_pair, sumVals_dincr]

theorem update_pair_wrong_sum (s : Stats) (t p : ℕ) :
    sumLens (_update_pair s t p).wrong_predictions =
      sumLens s.wrong_predictions + (if t = p then 0 else 1) := by
  by_cases h : t = p <;> simp [_update_pair, h, sumLens_dappend]

theorem update_pair_split (s : Stats) (t p : ℕ) (h : PerClassSplit s) :
    PerClassSplit (_update_pair s t p) := by
  intro i
  by_cases htp : t = p
  · subst htp
    by_cases hit : t = i
    · subst hit
      have ht := h t
      simp [_update_pair, dget_dincr_self]
      omega
    · have hi := h i
      simp [_update_pair, dget_dincr_ne _ _ _ hit]
      omega
  · by_cases hit : t = i
    · subst hit
      have ht := h t
      simp [_update_pair, htp, dget_dincr_self, dget_dappend_self]
      omega
    · have hi := h i
      simp [_update_pair, htp, dget_dincr_ne _ _ _ hit,
        dget_dappend_ne _ _ _ _ hit]
      omega

theorem update_pair_tple (s : Stats) (t p : ℕ) (h : TpLePredicted s) :
    TpLePredicted (_update_pair s t p) := by
  intro i
  by_cases htp : t = p
  · subst htp
    by_cases hit : t = i
    · subst hit
      simp [_update_pair, dget_dincr_self]
      exact h t
    · simp [_update_pair, dget_dincr_ne _ _ _ hit, h i]
  · by_cases hip : p = i
    · subst hip
      simp [_update_pair, htp, dget_dincr_self]
      have := h p
      omega
    · by_cases hit : t = i
      · subst hit
        simp [_update_pair, htp, dget_dincr_ne _ _ _ hip, h t]
      · simp [_update_pair, htp, dget_dincr_ne _ _ _ hip, h i]

theorem foldPairs_correct_total : ∀ (l : List (ℕ × ℕ)) (s : Stats),
    (l.foldl (fun a x => _update_pair a x.1 x.2) s).correct_total = s.correct_total
  | [], s => rfl
  | x :: rest, s => by
      simp only [List.foldl_cons]
      rw [foldPairs_correct_total rest _, update_pair_correct_total]

theorem foldPairs_total_sum : ∀ (l : List (ℕ × ℕ)) (s : Stats),
    sumVals (l.foldl (fun a x => _update_pair a x.1 x.2) s).total_per_class =
      sumVals s.total_per_class + l.length
  | [], s => rfl
  | x :: rest, s => by
      simp only [List.foldl_cons, List.length_cons]
      rw [foldPairs_total_sum rest _, update_pair_total_sum]
      omega

theorem foldPairs_wrong_sum : ∀ (l : List (ℕ × ℕ)) (s : Stats),
    sumLens (l.foldl (fun a x => _update_pair a x.1 x.2) s).wrong_predictions =
      sumLens s.wrong_predictions + l.countP (fun x => !decide (x.1 = x.2))
  | [], s => by simp
  | x :: rest, s => by
      simp only [List.foldl_cons, List.countP_cons]
      rw [foldPairs_wrong_sum rest _, update_pair_wrong_sum]
      by_cases h : x.1 = x.2 <;> simp [h] <;> omega

theorem foldPairs_split : ∀ (l : List (ℕ × ℕ)) (s : Stats),
    PerClassSplit s → PerClassSplit (l.foldl (fun a x => _update_pair a x.1 x.2) s)
  | [], _, h => h
  | x :: rest, s, h => by
      simp only [List.foldl_cons]
      exact foldPairs_split rest _ (update_pair_split s x.1 x.2 h)

theorem foldPairs_tple : ∀ (l : List (ℕ × ℕ)) (s : Stats),
    TpLePredicted s → TpLePredicted (l.foldl (fun a x => _update_pair a x.1 x.2) s)
  | [], _, h => h
  | x :: rest, s, h => by
      simp only [List.foldl_cons]
      exact foldPairs_tple rest _ (update_pair_tple s x.1 x.2 h)

theorem countEq_zip_comm : ∀ (a b : List ℕ),
    ((a.zip b).countP fun x => decide (x.1 = x.2)) =
      ((b.zip a).countP fun x => decide (x.1 = x.2))
  | [], b => by cases b <;> simp
  | x :: xs, [] => by simp
  | x :: xs, y :: ys => by
      simp only [List.zip_cons_cons, List.countP_cons, countEq_zip_comm xs ys]
      by_cases h : x = y
      · subst h; simp
      · simp [h, Ne.symm h]

theorem countEq_add_countNe : ∀ (l : List (ℕ × ℕ)),
    l.length = l.countP (fun x => decide (x.1 = x.2)) +
      l.countP (fun x => !decide (x.1 = x.2))
  | [] => rfl
  | x :: rest => by
      simp only [List.countP_cons, List.length_cons, countEq_add_countNe rest]
      by_cases h : x.1 = x.2
      · simp [h]
        omega
      · simp [h]
        omega

theorem update_per_class_eqlen (s : Stats) (y_pred y_true : List ℕ)
    (h : y_pred.length = y_true.length) (hs : StatsInv s) :
    ∃ s2, _update_per_class_dict s y_pred y_true = .ok s2 ∧ StatsInv s2 := by
  obtain ⟨h1, h2, h3⟩ := hs
  set c := (y_pred.zip y_true).countP fun x => decide (x.1 = x.2) with hcdef
  have hc : tensorEqCount y_pred y_true = some c := by
    simp [tensorEqCount, h, hcdef]
  have heq : _update_per_class_dict s y_pred y_true =
      .ok ((y_true.zip y_pred).foldl (fun a x => _update_pair a x.1 x.2)
        { s with correct_total := s.correct_total + c }) := by
    simp only [_update_per_class_dict, hc]
  refine ⟨_, heq, foldPairs_split _ _ h1, foldPairs_tple _ _ h2, ?_⟩
  have t1 := foldPairs_total_sum (y_true.zip y_pred)
    { s with correct_total := s.correct_total + c }
  have t2 := foldPairs_wrong_sum (y_true.zip y_pred)
    { s with correct_total := s.correct_total + c }
  have t3 := foldPairs_correct_total (y_true.zip y_pred)
    { s with correct_total := s.correct_total + c }
  have hlen2 : (y_true.zip y_pred).length = y_true.length := by
    rw [List.length_zip]
    omega
  have hcount := countEq_add_countNe (y_true.zip y_pred)
  have hc2 : c = (y_true.zip y_pred).countP fun x => decide (x.1 = x.2) :=
    countEq_zip_comm y_pred y_true
  simp only at t1 t2 t3 ⊢
  omega

theorem statsInv_init : StatsInv _initialize_per_class_dict := by
  refine ⟨fun i => ?_, fun i => ?_, ?_⟩ <;>
    simp [_initialize_per_class_dict, PerClassSplit, TpLePredicted,
      dget, sumVals, sumLens, sumBy]

theorem runUpdates_ok_inv : ∀ (batches : List (List ℕ × List ℕ)) (s : Stats),
    (∀ b ∈ batches, (b.1).length = (b.2).length) → StatsInv s →
    ∃ s2, runUpdates s batches = .ok s2 ∧ StatsInv s2
  | [], s, _, hs => ⟨s, rfl, hs⟩
  | b :: rest, s, h, hs => by
      obtain ⟨s2, heq, hs2⟩ :=
        update_per_class_eqlen s b.1 b.2 (h b (by simp)) hs
      obtain ⟨s3, heq3, hs3⟩ :=
        runUpdates_ok_inv rest s2 (fun bb hb => h bb (by simp [hb])) hs2
      exact ⟨s3, by simp [runUpdates, heq, heq3], hs3⟩

theorem runUpdates_statsInv (batches : List (List ℕ × List ℕ)) (s : Stats)
    (hlen : ∀ b ∈ batches, (b.1).length = (b.2).length)
    (hrun : runUpdates _initialize_per_class_dict batches = .ok s) :
    StatsInv s := by
  obtain ⟨s2, heq, hs2⟩ :=
    runUpdates_ok_inv batches _initialize_per_class_dict hlen statsInv_init
  rw [hrun] at heq
  obtain rfl : s = s2 := by injection heq
  exact hs2

theorem precisionAt_bounds (c p : List (ℕ × ℕ)) (i : ℕ)
    (h : tpAt c i ≤ paAt p i) :
    0 ≤ precisionAt c p i ∧ precisionAt c p i ≤ 1 := by
  unfold precisionAt
  dsimp only
  split_ifs with hpos
  · have hA : (0 : ℤ) ≤ (tpAt c i : ℤ) := Int.natCast_nonneg _
    have hAB : (tpAt c i : ℤ) ≤ (tpAt c i : ℤ) + fpAt c p i := by
      unfold fpAt
      have : (tpAt c i : ℤ) ≤ (paAt p i : ℤ) := by exact_mod_cast h
      omega
    constructor
    · apply div_nonneg
      · exact_mod_cast hA
      · exact_mod_cast le_of_lt hpos
    · rw [div_le_one (by exact_mod_cast hpos)]
      exact_mod_cast hAB
  · norm_num

theorem recallAt_bounds (c : List (ℕ × ℕ)) (w : List (ℕ × List ℕ)) (i : ℕ) :
    0 ≤ recallAt c w i ∧ recallAt c w i ≤ 1 := by
  unfold recallAt
  dsimp only
  split_ifs with hpos
  · constructor
    · positivity
    · rw [div_le_one (by exact_mod_cast hpos)]
      exact_mod_cast Nat.le_add_right _ _
  · norm_num

theorem f1_bounds_aux (pr rc : ℚ) (h1 : 0 ≤ pr) (h2 : pr ≤ 1)
    (h3 : 0 ≤ rc) (h4 : rc ≤ 1) :
    0 ≤ (if pr + rc > 0 then 2 * pr * rc / (pr + rc) else 0) ∧
      (if pr + rc > 0 then 2 * pr * rc / (pr + rc) else 0) ≤ 1 := by
  split_ifs with hpos
  · constructor
    · positivity
    · rw [div_le_one hpos]
      nlinarith [mul_nonneg (sub_nonneg.mpr h2) h3, mul_nonneg (sub_nonneg.mpr h4) h1]
  · norm_num

theorem f1At_bounds (c p : List (ℕ × ℕ)) (w : List (ℕ × List ℕ)) (i : ℕ)
    (h : tpAt c i ≤ paAt p i) :
    0 ≤ f1At c p w i ∧ f1At c p w i ≤ 1 := by
  obtain ⟨h1, h2⟩ := precisionAt_bounds c p i h
  obtain ⟨h3, h4⟩ := recallAt_bounds c w i
  exact f1_bounds_aux (precisionAt c p i) (recallAt c w i) h1 h2 h3 h4

theorem precisionAt_zero_denom (c p : List (ℕ × ℕ)) (i : ℕ)
    (h : (tpAt c i : ℤ) + fpAt c p i = 0) : precisionAt c p i = 0 := by
  unfold precisionAt
  dsimp only
  split_ifs with hx
  · exact absurd hx (by omega)
  · rfl

theorem recallAt_zero_denom (c : List (ℕ × ℕ)) (w : List (ℕ × List ℕ)) (i : ℕ)
    (h : tpAt c i + fnAt w i = 0) : recallAt c w i = 0 := by
  unfold recallAt
  dsimp only
  split_ifs with hx
  · exact absurd hx (by omega)
  · rfl

theorem f1At_zero_denom (c p : List (ℕ × ℕ)) (w : List (ℕ × List ℕ)) (i : ℕ)
    (h : precisionAt c p i + recallAt c w i = 0) : f1At c p w i = 0 := by
  unfold f1At
  dsimp only
  split_ifs with hx
  · exact absurd hx (by simp [h])
  · rfl

theorem precisionAt_tp_zero (c p : List (ℕ × ℕ)) (i : ℕ)
    (h : tpAt c i = 0) : precisionAt c p i = 0 := by
  unfold precisionAt
  dsimp only
  split_ifs with hx
  · simp [h]
  · rfl

theorem f1At_zero_support (c p : List (ℕ × ℕ)) (w : List (ℕ × List ℕ)) (i : ℕ)
    (h1 : tpAt c i = 0) (h2 : fnAt w i = 0) : f1At c p w i = 0 := by
  have hrc : recallAt c w i = 0 := recallAt_zero_denom c w i (by omega)
  have hpr : precisionAt c p i = 0 := precisionAt_tp_zero c p i h1
  exact f1At_zero_denom c p w i (by rw [hpr, hrc]; norm_num)

/-- Claim C1: the spec (and the functions' own docstrings) say that with
`save=False` both loops return `(0.0, 0.0)`; in fact `avg_loss =
sum(losses)/len(losses)` divides by zero because `losses` is only filled
when `save=True`, so both functions raise `ZeroDivisionError` on any
non-empty loader, while the `save=True` path does return the recorded
average loss and accuracy percentage. -/
theorem train_validate_save_false_zero_division :
    train_model [(1, 1)] 2 false 0 = .error "ZeroDivisionError" ∧
      validate_model [(1, 1)] 2 false false = .error "ZeroDivisionError" ∧
      train_model [(1, 1)] 2 true 0 = .ok (1, 50) := by
  refine ⟨rfl, rfl, ?_⟩
  norm_num [train_model, trainGo]

/-- Claim C2: the accumulator update does not fail fast on every length
mismatch — with a length-1 prediction tensor against two true labels,
the tensor comparison broadcasts (counting both positions) and Python
`zip` silently truncates the pair loop to the single shared position, so
the update succeeds with the second true label dropped. -/
theorem update_per_class_truncates_on_broadcast :
    _update_per_class_dict _initialize_per_class_dict [0] [0, 1] =
      .ok { correct_total := 1, total_per_class := [(0, 1)],
            correct_per_class := [(0, 1)], wrong_predictions := [],
            predicted_as_class := [(0, 1)] } := rfl

/-- Claim C3: every `ConfusionCounts` state reachable from the empty
state by accumulator updates with equal-length label sequences satisfies
`sum(total_per_class.values()) = correct_total + sum(len(v) for v in
wrong_predictions.values())`. -/
theorem confusion_counts_sum_invariant (batches : List (List ℕ × List ℕ))
    (hlen : ∀ b ∈ batches, (b.1).length = (b.2).length) :
    ∃ s, runUpdates _initialize_per_class_dict batches = .ok s ∧
      sumVals s.total_per_class = s.correct_total + sumLens s.wrong_predictions := by
  obtain ⟨s, heq, hinv⟩ :=
    runUpdates_ok_inv batches _initialize_per_class_dict hlen statsInv_init
  exact ⟨s, heq, hinv.2.2⟩

theorem confusion_counts_sum_invariant_witness :
    ∃ s, runUpdates _initialize_per_class_dict [([0, 1], [0, 2])] = .ok s ∧
      sumVals s.total_per_class = s.correct_total + sumLens s.wrong_predictions :=
  confusion_counts_sum_invariant [([0, 1], [0, 2])] (by decide)

/-- Claim C4: for every reachable accumulator state the metrics
dictionary's `macro_f1` entry is the sum of the per-class F1 values over
classes `0 .. num_classes - 1` divided by the configured `num_classes`,
and any class with zero support contributes `f1 = 0` to that sum. -/
theorem macro_f1_divided_by_configured_classes
    (batches : List (List ℕ × List ℕ)) (s : Stats)
    (y_true_all y_pred_all : List ℕ) (num_classes : ℕ)
    (hlen : ∀ b ∈ batches, (b.1).length = (b.2).length)
    (hrun : runUpdates _initialize_per_class_dict batches = .ok s)
    (_hn : 0 < num_classes) :
    dfind (compute_classification_metrics s.correct_per_class s.total_per_class
        s.wrong_predictions s.predicted_as_class y_true_all y_pred_all
        num_classes) "macro_f1" =
      some (MValue.num
        ((((List.range num_classes).map
            (f1At s.correct_per_class s.predicted_as_class
              s.wrong_predictions)).sum) / (num_classes : ℚ))) ∧
    ∀ i, supportAt s.total_per_class i = 0 →
      f1At s.correct_per_class s.predicted_as_class s.wrong_predictions i = 0 := by
  have hinv := runUpdates_statsInv batches s hlen hrun
  constructor
  · rfl
  · intro i hzero
    have hsplit := hinv.1 i
    unfold supportAt at hzero
    refine f1At_zero_support _ _ _ i ?_ ?_
    · unfold tpAt
      omega
    · unfold fnAt
      omega

theorem macro_f1_divided_by_configured_classes_witness :
    dfind (compute_classification_metrics [(0, 1)] [(0, 1)] [] [(0, 1)]
        [0] [0] 7) "macro_f1" =
      some (MValue.num
        ((((List.range 7).map (f1At [(0, 1)] [(0, 1)] [])).sum) / (7 : ℚ))) ∧
    ∀ i, supportAt [(0, 1)] i = 0 → f1At [(0, 1)] [(0, 1)] [] i = 0 :=
  macro_f1_divided_by_configured_classes [([0], [0])]
    { correct_total := 1, total_per_class := [(0, 1)],
      correct_per_class := [(0, 1)], wrong_predictions := [],
      predicted_as_class := [(0, 1)] }
    [0] [0] 7 (by decide) rfl (by decide)

/-- Claim C5: for every reachable accumulator state and every class, the
per-class precision, recall and F1 of the metrics finalization lie in
`[0, 1]`, the false-positive count `predicted_as_class[i] - tp` is never
negative, and each zero-denominator guard yields exactly `0`. -/
theorem per_class_rates_in_unit_interval (batches : List (List ℕ × List ℕ))
    (s : Stats) (i : ℕ)
    (hlen : ∀ b ∈ batches, (b.1).length = (b.2).length)
    (hrun : runUpdates _initialize_per_class_dict batches = .ok s) :
    0 ≤ fpAt s.correct_per_class s.predicted_as_class i ∧
    0 ≤ precisionAt s.correct_per_class s.predicted_as_class i ∧
    precisionAt s.correct_per_class s.predicted_as_class i ≤ 1 ∧
    0 ≤ recallAt s.correct_per_class s.wrong_predictions i ∧
    recallAt s.correct_per_class s.wrong_predictions i ≤ 1 ∧
    0 ≤ f1At s.correct_per_class s.predicted_as_class s.wrong_predictions i ∧
    f1At s.correct_per_class s.predicted_as_class s.wrong_predictions i ≤ 1 ∧
    ((tpAt s.correct_per_class i : ℤ) +
        fpAt s.correct_per_class s.predicted_as_class i = 0 →
      precisionAt s.correct_per_class s.predicted_as_class i = 0) ∧
    (tpAt s.correct_per_class i + fnAt s.wrong_predictions i = 0 →
      recallAt s.correct_per_class s.wrong_predictions i = 0) ∧
    (precisionAt s.correct_per_class s.predicted_as_class i +
        recallAt s.correct_per_class s.wrong_predictions i = 0 →
      f1At s.correct_per_class s.predicted_as_class s.wrong_predictions i = 0) := by
  have hinv := runUpdates_statsInv batches s hlen hrun
  have hle : tpAt s.correct_per_class i ≤ paAt s.predicted_as_class i :=
    hinv.2.1 i
  obtain ⟨hp1, hp2⟩ := precisionAt_bounds s.correct_per_class s.predicted_as_class i hle
  obtain ⟨hr1, hr2⟩ := recallAt_bounds s.correct_per_class s.wrong_predictions i
  obtain ⟨hf1, hf2⟩ := f1At_bounds s.correct_per_class s.predicted_as_class
    s.wrong_predictions i hle
  refine ⟨?_, hp1, hp2, hr1, hr2, hf1, hf2,
    precisionAt_zero_denom _ _ i,
    recallAt_zero_denom _ _ i,
    f1At_zero_denom _ _ _ i⟩
  unfold fpAt
  omega

theorem per_class_rates_in_unit_interval_witness :
    0 ≤ fpAt [(0, 1)] [(0, 1)] 0 ∧
    0 ≤ precisionAt [(0, 1)] [(0, 1)] 0 ∧
    precisionAt [(0, 1)] [(0, 1)] 0 ≤ 1 ∧
    0 ≤ recallAt [(0, 1)] [] 0 ∧
    recallAt [(0, 1)] [] 0 ≤ 1 ∧
    0 ≤ f1At [(0, 1)] [(0, 1)] [] 0 ∧
    f1At [(0, 1)] [(0, 1)] [] 0 ≤ 1 ∧
    ((tpAt [(0, 1)] 0 : ℤ) + fpAt [(0, 1)] [(0, 1)] 0 = 0 →
      precisionAt [(0, 1)] [(0, 1)] 0 = 0) ∧
    (tpAt [(0, 1)] 0 + fnAt [] 0 = 0 → recallAt [(0, 1)] [] 0 = 0) ∧
    (precisionAt [(0, 1)] [(0, 1)] 0 + recallAt [(0, 1)] [] 0 = 0 →
      f1At [(0, 1)] [(0, 1)] [] 0 = 0) :=
  per_class_rates_in_unit_interval [([0], [0])]
    { correct_total := 1, total_per_class := [(0, 1)],
      correct_per_class := [(0, 1)], wrong_predictions := [],
      predicted_as_class := [(0, 1)] }
    0 (by decide) rfl

/-- Claim C6: with `patience=2, delta=0` and observed validation losses
`1.0, 1.2, 1.3` at epochs `0, 1, 2`, the counter is `1` after the
epoch-1 observation, and after the epoch-2 observation the counter is
`2`, early stopping has triggered with `epoch_stop = 2 - 2 = 0`, and the
retained best snapshot is still the one captured at epoch 0. -/
theorem early_stopping_patience_two_scenario :
    (((EarlyStopping.init ℕ 2 0).call 1 10 0).call (6 / 5) 11 1).counter = 1 ∧
    ((((EarlyStopping.init ℕ 2 0).call 1 10 0).call (6 / 5) 11 1).call
        (13 / 10) 12 2).counter = 2 ∧
    ((((EarlyStopping.init ℕ 2 0).call 1 10 0).call (6 / 5) 11 1).call
        (13 / 10) 12 2).early_stop = true ∧
    ((((EarlyStopping.init ℕ 2 0).call 1 10 0).call (6 / 5) 11 1).call
        (13 / 10) 12 2).epoch_stop = 0 ∧
    ((((EarlyStopping.init ℕ 2 0).call 1 10 0).call (6 / 5) 11 1).call
        (13 / 10) 12 2).best_model_state = some 10 := by
  norm_num [EarlyStopping.init, EarlyStopping.call]

theorem map_div_one : ∀ (r : List ℚ), r.map (fun x => x / 1) = r
  | [] => rfl
  | x :: rest => by simp [map_div_one rest]

theorem row_self_avg : ∀ (r : List ℚ),
    (List.zipWith (fun a b => a + b) r r).map (fun x => x / (2 : ℚ)) = r
  | [] => rfl
  | x :: rest => by
      rw [List.zipWith_cons_cons, List.map_cons, row_self_avg rest]
      congr 1
      ring

theorem mat_self_avg : ∀ (M : List (List ℚ)),
    (List.zipWith (List.zipWith fun a b => a + b) M M).map
      (List.map fun x => x / (2 : ℚ)) = M
  | [] => rfl
  | r :: rest => by
      rw [List.zipWith_cons_cons, List.map_cons, mat_self_avg rest,
        row_self_avg r]

/-- Claim C7: ensembling the same model twice yields exactly the
single-model ensemble scores, and the single-model ensemble degenerates
to the model's raw score output. -/
theorem ensemble_pair_eq_single {α : Type} (m : TModel α) (b : α) :
    get_models_predictions [m, m] b = get_models_predictions [m] b ∧
      get_models_predictions [m] b = m.forward b := by
  have h1 : get_models_predictions [m] b = m.forward b := by
    simp [get_models_predictions, meanStack, stackSum]
  have h2 : get_models_predictions [m, m] b = m.forward b := by
    have hl : ((([m.forward b, m.forward b] : List (List (List ℚ))).length : ℕ) : ℚ) = 2 := by
      norm_num
    show (stackSum [m.forward b, m.forward b]).map
        (List.map fun x =>
          x / (([m.forward b, m.forward b] : List (List (List ℚ))).length : ℚ)) =
      m.forward b
    rw [hl]
    show (List.zipWith (List.zipWith fun a b => a + b) (m.forward b)
        (m.forward b)).map (List.map fun x => x / (2 : ℚ)) = m.forward b
    exact mat_self_avg (m.forward b)
  exact ⟨h2.trans h1.symm, h1⟩

/-- Claim C8: the metrics mapping produced for a completed evaluation
pass carries exactly the ten contracted keys, with the full ground-truth
and predicted label sequences stored unchanged under `correct_labels`
and `predicted_labels`. -/
theorem finalize_metrics_key_contract (s : Stats)
    (y_true_all y_pred_all : List ℕ) (datasetSize num_classes : ℕ)
    (h : datasetSize ≠ 0) :
    (_finalize_metrics s y_true_all y_pred_all datasetSize num_classes).map
        (fun m => m.map Prod.fst) =
      .ok ["per_class_precision", "per_class_recall", "per_class_f1",
        "macro_precision", "macro_recall", "macro_f1", "weighted_f1",
        "overall_accuracy", "correct_labels", "predicted_labels"] ∧
    (_finalize_metrics s y_true_all y_pred_all datasetSize num_classes).map
        (fun m => dfind m "correct_labels") =
      .ok (some (MValue.labelList y_true_all)) ∧
    (_finalize_metrics s y_true_all y_pred_all datasetSize num_classes).map
        (fun m => dfind m "predicted_labels") =
      .ok (some (MValue.labelList y_pred_all)) := by
  unfold _finalize_metrics
  simp only [if_neg h]
  exact ⟨rfl, rfl, rfl⟩

theorem finalize_metrics_key_contract_witness :
    (_finalize_metrics _initialize_per_class_dict [0] [0] 1 1).map
        (fun m => m.map Prod.fst) =
      .ok ["per_class_precision", "per_class_recall", "per_class_f1",
        "macro_precision", "macro_recall", "macro_f1", "weighted_f1",
        "overall_accuracy", "correct_labels", "predicted_labels"] ∧
    (_finalize_metrics _initialize_per_class_dict [0] [0] 1 1).map
        (fun m => dfind m "correct_labels") =
      .ok (some (MValue.labelList [0])) ∧
    (_finalize_metrics _initialize_per_class_dict [0] [0] 1 1).map
        (fun m => dfind m "predicted_labels") =
      .ok (some (MValue.labelList [0])) :=
  finalize_metrics_key_contract _initialize_per_class_dict [0] [0] 1 1
    (by decide)

theorem call_keeps_snapshot {σ : Type} (es : EarlyStopping σ) (v : ℚ)
    (sd : σ) (e : ℤ) (h : es.best_model_state.isSome) :
    ((es.call v sd e).best_model_state).isSome := by
  rcases hb : es.best_score with _ | best
  · simp [EarlyStopping.call, hb]
  · simp only [EarlyStopping.call, hb]
    split_ifs <;> simp_all

theorem foldCalls_snapshot {σ : Type} :
    ∀ (obs : List (ℚ × σ × ℤ)) (es : EarlyStopping σ),
    es.best_model_state.isSome →
    ((obs.foldl (fun a o => a.call o.1 o.2.1 o.2.2) es).best_model_state).isSome
  | [], _, h => h
  | o :: rest, es, h => by
      simp only [List.foldl_cons]
      exact foldCalls_snapshot rest _ (call_keeps_snapshot es o.1 o.2.1 o.2.2 h)

theorem init_call_snapshot {σ : Type} (p : ℕ) (d : ℚ) (v : ℚ) (sd : σ)
    (e : ℤ) :
    ((EarlyStopping.init σ p d).call v sd e).best_model_state = some sd := rfl

/-- Claim C9: `load_best_model` on a freshly constructed `EarlyStopping`
fails fast (the external parameter-import rejects the `None` snapshot),
while after at least one observation it succeeds and installs the
retained best snapshot. -/
theorem load_best_model_contract (σ : Type) (p : ℕ) (d : ℚ) (m : σ)
    (obs : List (ℚ × σ × ℤ)) (h : obs ≠ []) :
    (EarlyStopping.init σ p d).load_best_model m = .error "TypeError" ∧
    ∃ s, (obs.foldl (fun a o => a.call o.1 o.2.1 o.2.2)
        (EarlyStopping.init σ p d)).best_model_state = some s ∧
      (obs.foldl (fun a o => a.call o.1 o.2.1 o.2.2)
        (EarlyStopping.init σ p d)).load_best_model m = .ok s := by
  refine ⟨rfl, ?_⟩
  obtain ⟨o, rest, rfl⟩ := List.exists_cons_of_ne_nil h
  have h1 : ((((o :: rest).foldl (fun a o => a.call o.1 o.2.1 o.2.2)
      (EarlyStopping.init σ p d))).best_model_state).isSome := by
    simp only [List.foldl_cons]
    exact foldCalls_snapshot rest _ (by rw [init_call_snapshot]; rfl)
  obtain ⟨s, hs⟩ := Option.isSome_iff_exists.mp h1
  refine ⟨s, hs, ?_⟩
  unfold EarlyStopping.load_best_model load_state_dict
  rw [hs]

theorem load_best_model_contract_witness :
    (EarlyStopping.init ℕ 2 0).load_best_model 7 = .error "TypeError" ∧
    ∃ s, ([((1 : ℚ), 5, (0 : ℤ))].foldl (fun a o => a.call o.1 o.2.1 o.2.2)
        (EarlyStopping.init ℕ 2 0)).best_model_state = some s ∧
      ([((1 : ℚ), 5, (0 : ℤ))].foldl (fun a o => a.call o.1 o.2.1 o.2.2)
        (EarlyStopping.init ℕ 2 0)).load_best_model 7 = .ok s :=
  load_best_model_contract ℕ 2 0 7 [(1, 5, 0)] (by simp)

/-- Claim C10: with a non-empty model list, `test_model` on a loader
that yields no batches raises (the `metrics` binding is only created
inside the per-batch loop), so every metrics mapping it returns comes
from a pass that processed at least one batch. -/
theorem test_model_requires_nonempty_loader {α : Type}
    (models : List (TModel α)) (datasetSize : ℕ) (verbose : Bool)
    (h : models ≠ []) :
    test_model models ([] : List (α × List ℕ)) datasetSize verbose =
      .error "NameError" ∧
    ∀ (batches : List (α × List ℕ)) (r : MetricsDict),
      test_model models batches datasetSize verbose = .ok r → batches ≠ [] := by
  obtain ⟨m0, ms, rfl⟩ := List.exists_cons_of_ne_nil h
  constructor
  · rfl
  · intro batches r hok heq
    subst heq
    exact absurd hok (by simp [test_model, testGo])

theorem test_model_requires_nonempty_loader_witness :
    test_model [⟨fun _ => [[1]], 1⟩] ([] : List (ℕ × List ℕ)) 3 false =
      .error "NameError" ∧
    ∀ (batches : List (ℕ × List ℕ)) (r : MetricsDict),
      test_model [⟨fun _ => [[1]], 1⟩] batches 3 false = .ok r →
        batches ≠ [] :=
  test_model_requires_nonempty_loader [⟨fun _ => [[1]], 1⟩] 3 false (by simp)
